import Mathlib

/-!
Verification development for the CQL wire-protocol layer of yugabyte-db:
statement results (`src/yb/sql/util/statement_result.h`), the CQL RPC
connection context and inbound call (`cql_rpc.h`), and the network address
value type `InetAddress` (`inetaddress.cc`).

Definitions are shallow embeddings of the C++ source.  Machine integers are
modelled as `Nat` (with explicit `% 2^w` where C++ integer conversions
truncate), byte strings as `List Nat`, and fallible functions return a
`Status` paired with the receiver's final value, mirroring the
mutate-receiver-on-success style of the C++ code.
-/

namespace YB

/-- Error taxonomy of the `Status` values appearing in the embedded code. -/
inductive Status where
  | OK
  | InvalidArgument
  | Uninitialized
  | Corruption
  | IllegalState
  deriving DecidableEq, Repr

/-! ## InetAddress (`src/unnamed/part_000`, `yb/util/net/inetaddress.cc`)

The wrapped `boost::asio::ip::address` is either an IPv4 address (4 raw
bytes), an IPv6 address (16 raw bytes), or neither; `ToBytes` has an
explicit branch for the neither case, embedded here as `other`. -/

inductive BoostAddress where
  | v4 (bytes : List Nat)
  | v6 (bytes : List Nat)
  | other
  deriving DecidableEq, Repr

/-- The `InetAddress` value type holds a single boost address (`boost_addr_`). -/
structure InetAddress where
  boost_addr : BoostAddress
  deriving DecidableEq, Repr

/-- An `InetAddress` holds a valid IPv4 or IPv6 address: the v4 byte array
has exactly 4 entries (`address_v4::bytes_type`), the v6 byte array exactly
16 (`address_v6::bytes_type`). -/
def InetAddress.validAddr : InetAddress → Prop
  | ⟨.v4 b⟩ => b.length = 4
  | ⟨.v6 b⟩ => b.length = 16
  | ⟨.other⟩ => False

instance (a : InetAddress) : Decidable a.validAddr := by
  unfold InetAddress.validAddr
  rcases a with ⟨b | b | _⟩ <;> infer_instance

/-- Size of an IPv4 raw address, `kV4Size`. -/
def kV4Size : Nat := 4

/-- Size of an IPv6 raw address, `kV6Size`. -/
def kV6Size : Nat := 16

/-- Embedding of `InetAddress::ToBytes`: writes the 4 raw bytes of a v4
address, the 16 raw bytes of a v6 address, and fails with `Uninitialized`
when the address is neither v4 nor v6. -/
def InetAddress.ToBytes : InetAddress → Status × List Nat
  | ⟨.v4 b⟩ => (Status.OK, b)
  | ⟨.v6 b⟩ => (Status.OK, b)
  | ⟨.other⟩ => (Status.Uninitialized, [])

/-- The `expected_size` local of `InetAddress::FromSlice`: `size_hint`
when nonzero, the slice length otherwise. -/
def expectedSize (slice : List Nat) (size_hint : Nat) : Nat :=
  if size_hint = 0 then slice.length else size_hint

/-- Embedding of `InetAddress::FromSlice`.  A slice shorter than
`expected_size`, or an `expected_size` that is neither `kV4Size` nor
`kV6Size`, is `InvalidArgument`; otherwise the first `expected_size` bytes
are copied into a fresh v4 or v6 address which replaces `boost_addr_`.
The returned address is the receiver's value after the call (unchanged on
every error path, since the C++ code returns before assigning). -/
def InetAddress.FromSlice (a : InetAddress) (slice : List Nat) (size_hint : Nat) :
    Status × InetAddress :=
  if slice.length < expectedSize slice size_hint then
    (Status.InvalidArgument, a)
  else if expectedSize slice size_hint = kV4Size then
    (Status.OK, ⟨BoostAddress.v4 (slice.take kV4Size)⟩)
  else if expectedSize slice size_hint = kV6Size then
    (Status.OK, ⟨BoostAddress.v6 (slice.take kV6Size)⟩)
  else
    (Status.InvalidArgument, a)

/-- Embedding of `InetAddress::FromBytes`: wraps the byte string in a slice
and delegates to `FromSlice` with the default `size_hint = 0`. -/
def InetAddress.FromBytes (a : InetAddress) (bytes : List Nat) : Status × InetAddress :=
  a.FromSlice bytes 0

/-! ## Statement results (`yb/sql/util/statement_result.h`) -/

/-- Table identity (`client::YBTableName`), carried opaquely by results. -/
structure YBTableName where
  namespace_name : String
  table_name : String
  deriving DecidableEq, Repr

/-- Column schema (`ColumnSchema` of `yb/common/schema.h`), carried opaquely. -/
structure ColumnSchema where
  name : String
  type_id : Nat
  deriving DecidableEq, Repr

/-- Client result-encoding variant tag (`YQLClient` of `yql_protocol.pb.h`). -/
inductive YQLClient where
  | YQL_CLIENT_CQL
  | YQL_CLIENT_REDIS
  deriving DecidableEq, Repr

/-- Result of preparing a DML statement: table identity, bind-variable
schemas and selected-column schemas (class `PreparedResult`).  In the
source this class does NOT derive from `ExecuteResult`. -/
structure PreparedResult where
  table_name : YBTableName
  bind_variable_schemas : List ColumnSchema
  column_schemas : List ColumnSchema
  deriving DecidableEq, Repr

/-- Result of a USE statement (class `SetKeyspaceResult`): the keyspace. -/
structure SetKeyspaceResult where
  keyspace : String
  deriving DecidableEq, Repr

/-- Result of rows returned from a DML statement (class `RowsResult`):
table identity, column schemas, opaque serialized row payload, client
encoding tag and a mutable paging state. -/
structure RowsResult where
  table_name : YBTableName
  column_schemas : List ColumnSchema
  rows_data : String
  client : YQLClient
  paging_state : String
  deriving DecidableEq, Repr

/-- Embedding of `RowsResult::clear_paging_state`, whose body is
`paging_state_.clear()`: only the `paging_state_` field is assigned. -/
def RowsResult.clear_paging_state (r : RowsResult) : RowsResult :=
  RowsResult.mk r.table_name r.column_schemas r.rows_data r.client ""

/-- Execution result type tags, `ExecuteResult::Type` (values 1 and 2). -/
inductive RType where
  | SET_KEYSPACE
  | ROWS
  deriving DecidableEq, Repr

/-- Numeric values of the `ExecuteResult::Type` enumerators. -/
def RType.toNat : RType → Nat
  | .SET_KEYSPACE => 1
  | .ROWS => 2

/-- The closed set of concrete subclasses of `ExecuteResult` in the source:
exactly `SetKeyspaceResult` and `RowsResult` derive from it, so a value of
the base type is one of these two variants. -/
inductive ExecuteResult where
  | setKeyspace (r : SetKeyspaceResult)
  | rows (r : RowsResult)
  deriving DecidableEq, Repr

/-- The virtual `type()` override of each subclass: `SetKeyspaceResult`
returns `Type::SET_KEYSPACE` and `RowsResult` returns `Type::ROWS`. -/
def ExecuteResult.rtype : ExecuteResult → RType
  | .setKeyspace _ => RType.SET_KEYSPACE
  | .rows _ => RType.ROWS

/-- Names of the four statement-result classes declared in
`statement_result.h`. -/
inductive ResultClass where
  | cPreparedResult
  | cExecuteResult
  | cSetKeyspaceResult
  | cRowsResult
  deriving DecidableEq, Repr

/-- Direct base class of each statement-result class, read off the class
heads of the source: `class PreparedResult {`, `class ExecuteResult {`,
`class SetKeyspaceResult : public ExecuteResult`,
`class RowsResult : public ExecuteResult`. -/
def baseClass : ResultClass → Option ResultClass
  | .cPreparedResult => none
  | .cExecuteResult => none
  | .cSetKeyspaceResult => some ResultClass.cExecuteResult
  | .cRowsResult => some ResultClass.cExecuteResult

/-! ## CQL inbound call, source-level fields (`cql_rpc.h`) -/

/-- Stream ids are stored in the `uint16_t` field `stream_id_`. -/
abbrev StreamId := Fin 65536

/-- C++ integer conversion to `uint16_t`: reduction modulo 2^16.  This is
the conversion applied to any wider call-id value assigned into the
`stream_id_` field. -/
def toUInt16Field (n : Nat) : StreamId :=
  ⟨n % 65536, Nat.mod_lt n (by norm_num)⟩

/-- The fields of `CQLInboundCall` relevant to response correlation:
the `uint16_t stream_id_` and the serialized response buffer
`response_msg_buf_`. -/
structure CQLInboundCall where
  stream_id : StreamId
  response_msg_buf : List Nat
  deriving DecidableEq, Repr

/-- Embedding of `CQLConnectionContext::ExtractCallId`, which reports the
call's id as a `uint64_t`: widening a `uint16_t` value to 64 bits
preserves the value. -/
def ExtractCallId (call : CQLInboundCall) : Nat :=
  (call.stream_id : Nat)

/-- A call object whose `stream_id_` field is initialized from a wider
call-id value `n`: the C++ conversion to the `uint16_t` field truncates. -/
def mkCallWithId (n : Nat) : CQLInboundCall :=
  CQLInboundCall.mk (toUInt16Field n) []

/-! ## Connection context (`cql_rpc.h`, spec section 4.1)

The header declares the `compression_scheme_` field (default `NONE`), its
accessor and setter, `ExtractCallId`, `ProcessCalls` and `BufferLimit`;
the bodies of `ProcessCalls`/`BufferLimit` and the negotiation path are
not part of the excerpt and are modelled from the spec below. -/

/-- CQL message compression schemes (`CQLMessage::CompressionScheme`);
the spec recognizes the options none, snappy and lz4, and the
`compression_scheme_` field is initialized to `NONE`. -/
inductive CompressionScheme where
  | NONE
  | SNAPPY
  | LZ4
  deriving DecidableEq, Repr

/-- Connection-level errors of the spec's error taxonomy that the
connection context raises. -/
inductive ConnError where
  | ProtocolError
  | ResourceExhausted
  deriving DecidableEq, Repr

/-- Per-connection protocol state: the negotiated compression scheme
(`compression_scheme_` in the source), whether negotiation has happened,
the buffered-but-incomplete frame bytes, and liveness. -/
structure CQLConnectionContext where
  compression_scheme : CompressionScheme
  negotiated : Bool
  buffered : List Nat
  closed : Bool
  deriving DecidableEq, Repr

/-- Embedding of `CQLConnectionContext::set_compression_scheme`, whose body
assigns `compression_scheme_`; no other field is touched. -/
def CQLConnectionContext.set_compression_scheme
    (ctx : CQLConnectionContext) (s : CompressionScheme) : CQLConnectionContext :=
  CQLConnectionContext.mk s ctx.negotiated ctx.buffered ctx.closed

/-- State of a freshly accepted connection: `compression_scheme_` default
`NONE`, nothing negotiated or buffered. -/
def CQLConnectionContext.initial : CQLConnectionContext :=
  CQLConnectionContext.mk CompressionScheme.NONE false [] false

/-- Modelled from the spec: the compression option strings recognized by
`negotiate(options)` are none, snappy and lz4 (the option decoding lives
in the STARTUP handling of `cql_rpc.cc`, not in the excerpt). -/
def codecOfOption : String → Option CompressionScheme
  | "none" => some CompressionScheme.NONE
  | "snappy" => some CompressionScheme.SNAPPY
  | "lz4" => some CompressionScheme.LZ4
  | _ => none

/-- Modelled from the spec: `negotiate(options)` (the STARTUP-frame
handling of `ProcessCalls` in `cql_rpc.cc` is not in the excerpt).
Compression is negotiated on the first control frame and is fixed for the
connection's lifetime, so on an already-negotiated connection the frame
leaves the context unchanged; an unsupported codec fails with
`ProtocolError`.  The scheme itself is stored through the source's
`set_compression_scheme`. -/
def CQLConnectionContext.negotiate
    (ctx : CQLConnectionContext) (option : String) :
    Except ConnError CQLConnectionContext :=
  if ctx.negotiated then
    Except.ok ctx
  else
    match codecOfOption option with
    | some s =>
        Except.ok (CQLConnectionContext.mk
          (ctx.set_compression_scheme s).compression_scheme true ctx.buffered ctx.closed)
    | none => Except.error ConnError.ProtocolError

/-- Modelled from the spec: the maximum buffered-but-incomplete-frame size
enforced by `BufferLimit` (whose body is not in the excerpt). -/
def kMaxBufferedBytes : Nat := 1048576

/-- A CQL frame header is 9 bytes: version, flags, a 2-byte stream id, an
opcode and a 4-byte big-endian body length. -/
def kHeaderSize : Nat := 9

/-- Body length read from the 4 big-endian length bytes of a buffered
frame header (bytes 5 to 8). -/
def headerBodyLen (buf : List Nat) : Nat :=
  buf.getD 5 0 * 16777216 + buf.getD 6 0 * 65536 + buf.getD 7 0 * 256 + buf.getD 8 0

/-- Modelled from the spec: split buffered bytes into complete frames and
a partial trailing remainder (the frame loop of `ProcessCalls` is not in
the excerpt).  Fuel bounds the recursion by the buffer length. -/
def takeFrames (fuel : Nat) (buf : List Nat) : List (List Nat) × List Nat :=
  match fuel with
  | 0 => ([], buf)
  | fuel + 1 =>
    if buf.length < kHeaderSize then ([], buf)
    else
      let total := kHeaderSize + headerBodyLen buf
      if buf.length < total then ([], buf)
      else
        let rest := takeFrames fuel (buf.drop total)
        (buf.take total :: rest.1, rest.2)

/-- Modelled from the spec: `consume(buffer)` decodes zero or more complete
frames, buffers the partial trailing bytes, and fails with
`ResourceExhausted` when the buffered incomplete frame exceeds the limit
(`ProcessCalls`/`BufferLimit` bodies are not in the excerpt).  The
compression scheme and negotiation state are not touched. -/
def CQLConnectionContext.consume
    (ctx : CQLConnectionContext) (bytes : List Nat) :
    Except ConnError (CQLConnectionContext × List (List Nat)) :=
  let buf := ctx.buffered ++ bytes
  let split := takeFrames buf.length buf
  if kMaxBufferedBytes < split.2.length then
    Except.error ConnError.ResourceExhausted
  else
    Except.ok
      (CQLConnectionContext.mk ctx.compression_scheme ctx.negotiated split.2 ctx.closed,
       split.1)

/-- Modelled from the spec: `close()` releases the connection's resources;
it does not touch the negotiated compression scheme. -/
def CQLConnectionContext.closeConn (ctx : CQLConnectionContext) : CQLConnectionContext :=
  CQLConnectionContext.mk ctx.compression_scheme ctx.negotiated ctx.buffered true

/-- The operations the spec exposes on a connection context. -/
inductive ConnOp where
  | negotiate (option : String)
  | consume (bytes : List Nat)
  | close
  deriving DecidableEq, Repr

/-- Apply one connection operation; a connection-fatal error closes the
connection (spec section 4.1 failure semantics). -/
def applyConnOp (ctx : CQLConnectionContext) : ConnOp → CQLConnectionContext
  | ConnOp.negotiate opt =>
      match ctx.negotiate opt with
      | Except.ok c => c
      | Except.error _ => ctx.closeConn
  | ConnOp.consume bytes =>
      match ctx.consume bytes with
      | Except.ok p => p.1
      | Except.error _ => ctx.closeConn
  | ConnOp.close => ctx.closeConn

/-- Apply a sequence of connection operations in order. -/
def applyConnOps (ctx : CQLConnectionContext) : List ConnOp → CQLConnectionContext
  | [] => ctx
  | op :: ops => applyConnOps (applyConnOp ctx op) ops

/-! ## CQL frames and request parsing (spec section 6, `cql_rpc.h`)

`CQLInboundCall::ParseFrom` and `CQLInboundCall::Serialize` are declared in
the excerpt but their bodies (`cql_rpc.cc`, `cql_message.cc`) are not;
both are modelled from the spec. -/

/-- Wire opcodes of the protocol (spec section 6). -/
inductive Opcode where
  | ERROR
  | STARTUP
  | READY
  | OPTIONS
  | SUPPORTED
  | QUERY
  | RESULT
  | PREPARE
  | EXECUTE
  | REGISTER
  deriving DecidableEq, Repr

/-- The request opcodes recognized by the spec. -/
def Opcode.isRequest : Opcode → Bool
  | Opcode.STARTUP => true
  | Opcode.OPTIONS => true
  | Opcode.QUERY => true
  | Opcode.PREPARE => true
  | Opcode.EXECUTE => true
  | Opcode.REGISTER => true
  | _ => false

/-- A wire frame: header fields (protocol version, flags, demultiplexing
stream id, opcode, implicit length) and opcode-specific body. -/
structure Frame where
  version : Nat
  flags : Nat
  streamId : StreamId
  opcode : Opcode
  body : List Nat
  deriving DecidableEq, Repr

/-- Call-scoped errors raised while decoding a request payload. -/
inductive CallError where
  | MalformedRequest
  deriving DecidableEq, Repr

/-- The parsed state a `CQLInboundCall` keeps after `ParseFrom`: the
frame's stream id (stored in `stream_id_`) and the typed request. -/
structure ParsedCQLCall where
  stream_id : StreamId
  request_opcode : Opcode
  request_body : List Nat
  deriving DecidableEq, Repr

/-- Modelled from the spec: `CQLInboundCall::ParseFrom` (body in
`cql_rpc.cc`, not in the excerpt) decodes a frame into a typed request,
recording the frame's demultiplexing id in `stream_id_`; a frame whose
opcode is not a request opcode fails with `MalformedRequest`. -/
def CQLParseFrom (f : Frame) : Except CallError ParsedCQLCall :=
  if f.opcode.isRequest then
    Except.ok (ParsedCQLCall.mk f.streamId f.opcode f.body)
  else
    Except.error CallError.MalformedRequest

/-- Outcome serialized back to the client: an execution result or a
call-scoped error. -/
inductive ResponseOutcome where
  | result (r : ExecuteResult)
  | failure (code : Nat) (msg : String)
  deriving DecidableEq, Repr

/-- Modelled from the spec: opaque body encoding of a response outcome
(the byte-exact encoding lives in `cql_message.cc`, not in the excerpt). -/
def encodeResponseBody : ResponseOutcome → List Nat
  | ResponseOutcome.result r => [r.rtype.toNat]
  | ResponseOutcome.failure code _ => [0, code % 256]

/-- Modelled from the spec: `CQLInboundCall::Serialize` (body in
`cql_rpc.cc`, not in the excerpt) renders the produced result or error
into a response frame tagged with the call's demultiplexing id; a result
is sent under `RESULT`, an error under `ERROR`. -/
def CQLSerialize (call : ParsedCQLCall) (outcome : ResponseOutcome) : Frame :=
  Frame.mk 132 0 call.stream_id
    (match outcome with
     | ResponseOutcome.result _ => Opcode.RESULT
     | ResponseOutcome.failure _ _ => Opcode.ERROR)
    (encodeResponseBody outcome)

/-! ## Inbound call lifecycle (spec sections 4.2, 4.4, 5)

`CQLInboundCall::TryResume`, `RespondFailure`, `RespondSuccess` and the
deadline checks are declared in the excerpt but their bodies
(`cql_rpc.cc` and the rpc layer) are not; the lifecycle below is modelled
from the spec. -/

/-- Phases of the call state machine of spec section 4.2. -/
inductive Phase where
  | received
  | parsing
  | executing
  | suspended
  | responding
  | done
  | errored
  deriving DecidableEq, Repr

/-- Modelled from the spec: a stored resumption handle (`resume_from_` in
the source, an opaque callback): the remaining execution either finishes
with a serialized response or yields again with a further handle. -/
inductive Cont where
  | finish (resp : List Nat)
  | yieldAgain (rest : Cont)
  deriving DecidableEq, Repr

/-- The call state `TryResume` acts on: current phase, the serialized
response bytes (`response_msg_buf_`), how many times a response has been
handed to the transport, and the stored resumption handle
(`resume_from_`). -/
structure ModelCall where
  phase : Phase
  response_buf : List Nat
  sent : Nat
  resume_from : Option Cont
  deriving DecidableEq, Repr

/-- Modelled from the spec: re-entering execution from a stored
continuation; finishing serializes the response, delivers it once, and
reaches `Done`; yielding stores the next handle and returns to
`Suspended`. -/
def applyCont (c : ModelCall) : Cont → ModelCall
  | Cont.finish resp => ModelCall.mk Phase.done resp (c.sent + 1) none
  | Cont.yieldAgain rest => ModelCall.mk Phase.suspended c.response_buf c.sent (some rest)

/-- Modelled from the spec: `CQLInboundCall::TryResume` (body in
`cql_rpc.cc`, not in the excerpt).  Resuming a call already in `Done` or
`Errored` is a no-op that reports the call complete; otherwise the stored
continuation, if any, is run; with no stored continuation the call is not
yet resumable.  Returns the new call state and whether the call is now
complete. -/
def TryResume (c : ModelCall) : ModelCall × Bool :=
  if c.phase = Phase.done ∨ c.phase = Phase.errored then
    (c, true)
  else
    match c.resume_from with
    | none => (c, false)
    | some k =>
        let c2 := applyCont c k
        (c2, decide (c2.phase = Phase.done))

/-- Responses a call can deliver: a success carrying serialized bytes, the
timeout error of `RespondFailure`, or another call-scoped failure. -/
inductive Resp where
  | success (bytes : List Nat)
  | timeoutError
  | failure (code : Nat)
  deriving DecidableEq, Repr

/-- Deadline-tracking call state: phase, the absolute deadline
(`GetClientDeadline`), and the response delivered so far, if any. -/
structure CallSt where
  phase : Phase
  deadline : Nat
  response : Option Resp
  deriving DecidableEq, Repr

/-- Modelled from the spec: the call state machine with deadline
enforcement (spec sections 4.2 and 5).  `CallStep now s t` says the call
may move from `s` to `t` at time `now`.  The deadline is checked before
entering `Executing` (from parsing or on resume) and before `Responding`
completes; on expiry the call moves directly to `Errored` and
`RespondFailure` delivers the timeout error; a response is delivered only
when none has been delivered yet. -/
inductive CallStep : Nat → CallSt → CallSt → Prop where
  | startParse (now : Nat) (s : CallSt) (h : s.phase = Phase.received) :
      CallStep now s (CallSt.mk Phase.parsing s.deadline s.response)
  | enterExecuting (now : Nat) (s : CallSt) (h : s.phase = Phase.parsing)
      (hd : now ≤ s.deadline) :
      CallStep now s (CallSt.mk Phase.executing s.deadline s.response)
  | enterExpired (now : Nat) (s : CallSt) (h : s.phase = Phase.parsing)
      (hd : s.deadline < now) (hr : s.response = none) :
      CallStep now s (CallSt.mk Phase.errored s.deadline (some Resp.timeoutError))
  | suspendCall (now : Nat) (s : CallSt) (h : s.phase = Phase.executing) :
      CallStep now s (CallSt.mk Phase.suspended s.deadline s.response)
  | resumeCall (now : Nat) (s : CallSt) (h : s.phase = Phase.suspended)
      (hd : now ≤ s.deadline) :
      CallStep now s (CallSt.mk Phase.executing s.deadline s.response)
  | resumeExpired (now : Nat) (s : CallSt) (h : s.phase = Phase.suspended)
      (hd : s.deadline < now) (hr : s.response = none) :
      CallStep now s (CallSt.mk Phase.errored s.deadline (some Resp.timeoutError))
  | finishExecuting (now : Nat) (s : CallSt) (h : s.phase = Phase.executing) :
      CallStep now s (CallSt.mk Phase.responding s.deadline s.response)
  | respondOk (now : Nat) (s : CallSt) (bytes : List Nat)
      (h : s.phase = Phase.responding) (hd : now ≤ s.deadline) (hr : s.response = none) :
      CallStep now s (CallSt.mk Phase.done s.deadline (some (Resp.success bytes)))
  | respondExpired (now : Nat) (s : CallSt) (h : s.phase = Phase.responding)
      (hd : s.deadline < now) (hr : s.response = none) :
      CallStep now s (CallSt.mk Phase.errored s.deadline (some Resp.timeoutError))

/-- A lifecycle step at some time. -/
def StepAt (s t : CallSt) : Prop := ∃ now, CallStep now s t

/-! ## Theorems -/

/-- C1: invoking `TryResume` on a call already in the `Done` or `Errored`
state is a no-op: the call state is returned unchanged (in particular the
serialized response bytes and the number of delivered responses are
unchanged, so the response is never sent a second time) and the call is
reported complete. -/
theorem tryResume_noop_on_completed (c : ModelCall)
    (h : c.phase = Phase.done ∨ c.phase = Phase.errored) :
    TryResume c = (c, true) ∧
    (TryResume c).1.response_buf = c.response_buf ∧
    (TryResume c).1.sent = c.sent := by
  unfold TryResume
  rw [if_pos h]
  exact ⟨rfl, rfl, rfl⟩

/-- Witness for C1: resuming a concrete `Done` call with a delivered
response leaves it untouched. -/
theorem tryResume_noop_on_completed_witness :
    TryResume (ModelCall.mk Phase.done [1, 2, 3] 1 none)
      = (ModelCall.mk Phase.done [1, 2, 3] 1 none, true) :=
  (tryResume_noop_on_completed (ModelCall.mk Phase.done [1, 2, 3] 1 none) (Or.inl rfl)).1

/-- C2: parsing a valid request frame and serializing the matching
response, whether a result or an error, produces a response frame whose
demultiplexing (stream) id equals the id of the original request frame. -/
theorem parse_serialize_same_stream_id (f : Frame) (call : ParsedCQLCall)
    (h : CQLParseFrom f = Except.ok call) (outcome : ResponseOutcome) :
    (CQLSerialize call outcome).streamId = f.streamId := by
  unfold CQLParseFrom at h
  split at h
  · simp only [Except.ok.injEq] at h
    subst h
    rfl
  · exact Except.noConfusion h

/-- Witness for C2: a concrete QUERY frame with stream id 7, answered with
an error response, echoes id 7. -/
theorem parse_serialize_same_stream_id_witness :
    (CQLSerialize (ParsedCQLCall.mk (7 : StreamId) Opcode.QUERY [1])
        (ResponseOutcome.failure 3 "oops")).streamId
      = (Frame.mk 4 0 (7 : StreamId) Opcode.QUERY [1]).streamId :=
  parse_serialize_same_stream_id (Frame.mk 4 0 (7 : StreamId) Opcode.QUERY [1])
    (ParsedCQLCall.mk (7 : StreamId) Opcode.QUERY [1]) rfl
    (ResponseOutcome.failure 3 "oops")

/-- C3 counterexample: in the source, `PreparedResult` is declared with no
base class, so it is not a variant under the common base `ExecuteResult`
(only `SetKeyspaceResult` and `RowsResult` are); the claim that all three
sit under a common base type is false. -/
theorem preparedResult_not_under_common_base :
    baseClass ResultClass.cPreparedResult ≠ some ResultClass.cExecuteResult ∧
    baseClass ResultClass.cPreparedResult = none := by
  exact ⟨by decide, rfl⟩

/-- C3 amended: `SetKeyspaceResult` and `RowsResult` form a closed tagged
union under the base `ExecuteResult`: every base value is exactly one of
the two variants, the `type()` tag identifies the variant actually
populated (`SET_KEYSPACE` for `SetKeyspaceResult`, `ROWS` for
`RowsResult`), and serialization can match exhaustively over this fixed
variant set; `PreparedResult` is a standalone result class outside the
union. -/
theorem executeResult_closed_tagged_union (r : ExecuteResult) :
    ((∃ k, r = ExecuteResult.setKeyspace k) ∨ (∃ w, r = ExecuteResult.rows w)) ∧
    (¬ ((∃ k, r = ExecuteResult.setKeyspace k) ∧ (∃ w, r = ExecuteResult.rows w))) ∧
    (r.rtype = RType.SET_KEYSPACE ↔ ∃ k, r = ExecuteResult.setKeyspace k) ∧
    (r.rtype = RType.ROWS ↔ ∃ w, r = ExecuteResult.rows w) ∧
    baseClass ResultClass.cSetKeyspaceResult = some ResultClass.cExecuteResult ∧
    baseClass ResultClass.cRowsResult = some ResultClass.cExecuteResult ∧
    baseClass ResultClass.cPreparedResult = none := by
  cases r <;> simp [ExecuteResult.rtype, baseClass]

/-- Helper: a successful `consume` keeps the negotiation state and the
compression scheme of the context. -/
theorem consume_fields (ctx : CQLConnectionContext) (bytes : List Nat)
    (p : CQLConnectionContext × List (List Nat)) (h : ctx.consume bytes = Except.ok p) :
    p.1.negotiated = ctx.negotiated ∧
    p.1.compression_scheme = ctx.compression_scheme := by
  simp only [CQLConnectionContext.consume] at h
  split at h
  · exact Except.noConfusion h
  · simp only [Except.ok.injEq] at h
    rw [← h]
    exact ⟨rfl, rfl⟩

/-- Helper: one connection operation on a negotiated connection keeps it
negotiated and keeps the compression scheme. -/
theorem applyConnOp_keeps_scheme (ctx : CQLConnectionContext) (op : ConnOp)
    (h : ctx.negotiated = true) :
    (applyConnOp ctx op).negotiated = true ∧
    (applyConnOp ctx op).compression_scheme = ctx.compression_scheme := by
  cases op with
  | negotiate opt =>
      simp [applyConnOp, CQLConnectionContext.negotiate, h]
  | consume bytes =>
      cases hcon : ctx.consume bytes with
      | error e =>
          simp [applyConnOp, hcon, CQLConnectionContext.closeConn, h]
      | ok p =>
          have hp := consume_fields ctx bytes p hcon
          simp [applyConnOp, hcon, hp.1, hp.2, h]
  | close =>
      exact ⟨h, rfl⟩

/-- C4: once a connection context is negotiated, every sequence of
connection operations (further negotiation frames, byte consumption,
close) leaves `compression_scheme()` returning the same value. -/
theorem compression_scheme_immutable_after_negotiation
    (ctx : CQLConnectionContext) (ops : List ConnOp) (h : ctx.negotiated = true) :
    (applyConnOps ctx ops).compression_scheme = ctx.compression_scheme := by
  induction ops generalizing ctx with
  | nil => rfl
  | cons op ops ih =>
      have hp := applyConnOp_keeps_scheme ctx op h
      calc (applyConnOps (applyConnOp ctx op) ops).compression_scheme
          = (applyConnOp ctx op).compression_scheme := ih (applyConnOp ctx op) hp.1
        _ = ctx.compression_scheme := hp.2

/-- Witness for C4: a concrete negotiated LZ4 connection keeps LZ4 through
a renegotiation attempt, byte consumption and close. -/
theorem compression_scheme_immutable_witness :
    (applyConnOps (CQLConnectionContext.mk CompressionScheme.LZ4 true [] false)
        [ConnOp.negotiate "snappy", ConnOp.consume [1, 2, 3], ConnOp.close]).compression_scheme
      = (CQLConnectionContext.mk CompressionScheme.LZ4 true [] false).compression_scheme :=
  compression_scheme_immutable_after_negotiation
    (CQLConnectionContext.mk CompressionScheme.LZ4 true [] false)
    [ConnOp.negotiate "snappy", ConnOp.consume [1, 2, 3], ConnOp.close] rfl

/-- C5: `clear_paging_state` leaves the row payload, the column schemas,
the table name and the client encoding tag unchanged, and afterwards the
paging state is the empty string. -/
theorem clear_paging_state_only_clears_paging_state (r : RowsResult) :
    r.clear_paging_state.rows_data = r.rows_data ∧
    r.clear_paging_state.column_schemas = r.column_schemas ∧
    r.clear_paging_state.table_name = r.table_name ∧
    r.clear_paging_state.client = r.client ∧
    r.clear_paging_state.paging_state = "" :=
  ⟨rfl, rfl, rfl, rfl, rfl⟩

/-- Helper: a single lifecycle step never replaces an already-delivered
response. -/
theorem callStep_keeps_response (now : Nat) (s t : CallSt) (hst : CallStep now s t)
    (r : Resp) (hr : s.response = some r) : t.response = some r := by
  cases hst <;> simp_all

/-- C6: deadline enforcement.  Along any execution of the call lifecycle:
a delivered response is never altered afterwards (at-most-once response
delivery); any step entering `Executing` happens within the deadline;
past the deadline the only response a step can produce is the timeout
error of `RespondFailure`, moving the call to `Errored`; and a success
response is only ever produced within the deadline, moving the call to
`Done` — so a call whose execution does not complete before its deadline
responds with a timeout error and never also with a success. -/
theorem call_deadline_enforcement :
    (∀ s t : CallSt, Relation.ReflTransGen StepAt s t →
        ∀ r, s.response = some r → t.response = some r) ∧
    (∀ (now : Nat) (s t : CallSt), CallStep now s t → t.phase = Phase.executing →
        now ≤ s.deadline) ∧
    (∀ (now : Nat) (s t : CallSt), CallStep now s t → s.deadline < now →
        t.response ≠ s.response →
        t.phase = Phase.errored ∧ t.response = some Resp.timeoutError) ∧
    (∀ (now : Nat) (s t : CallSt), CallStep now s t →
        (∃ b, t.response = some (Resp.success b)) → s.response = none →
        now ≤ s.deadline ∧ t.phase = Phase.done) := by
  refine ⟨?_, ?_, ?_, ?_⟩
  · intro s t h r hr
    induction h with
    | refl => exact hr
    | tail _ hstep ih =>
        obtain ⟨now, hstep⟩ := hstep
        exact callStep_keeps_response now _ _ hstep r ih
  · intro now s t hst hph
    cases hst <;> simp_all
  · intro now s t hst hd hne
    cases hst <;> (simp_all; try omega)
  · intro now s t hst hb hr
    obtain ⟨b, hb⟩ := hb
    cases hst <;> simp_all

/-- Witness for C6: the concrete step entering `Executing` at time 3 with
deadline 10 certifies the deadline check. -/
theorem call_deadline_enforcement_witness :
    (3 : Nat) ≤ (CallSt.mk Phase.parsing 10 none).deadline :=
  call_deadline_enforcement.2.1 3 (CallSt.mk Phase.parsing 10 none)
    (CallSt.mk Phase.executing 10 none)
    (CallStep.enterExecuting 3 (CallSt.mk Phase.parsing 10 none) rfl (by norm_num)) rfl

/-- C8: for every `InetAddress` holding a valid IPv4 or IPv6 address,
`ToBytes` succeeds, producing exactly 4 bytes for v4 and exactly 16 bytes
for v6, and `FromBytes` applied to those bytes (on any receiver) succeeds
and reconstructs an address equal to the original. -/
theorem inet_tobytes_frombytes_roundtrip (a r : InetAddress) (h : a.validAddr) :
    a.ToBytes.1 = Status.OK ∧
    ((∃ b, a.boost_addr = BoostAddress.v4 b) → a.ToBytes.2.length = 4) ∧
    ((∃ b, a.boost_addr = BoostAddress.v6 b) → a.ToBytes.2.length = 16) ∧
    r.FromBytes a.ToBytes.2 = (Status.OK, a) := by
  rcases a with ⟨b | b | _⟩
  · unfold InetAddress.validAddr at h
    refine ⟨rfl, fun _ => h, ?_, ?_⟩
    · rintro ⟨b2, hb⟩
      simp at hb
    · unfold InetAddress.ToBytes InetAddress.FromBytes InetAddress.FromSlice expectedSize
        kV4Size kV6Size
      simp [h, List.take_of_length_le (Nat.le_of_eq h)]
  · unfold InetAddress.validAddr at h
    refine ⟨rfl, ?_, fun _ => h, ?_⟩
    · rintro ⟨b2, hb⟩
      simp at hb
    · unfold InetAddress.ToBytes InetAddress.FromBytes InetAddress.FromSlice expectedSize
        kV4Size kV6Size
      simp [h, List.take_of_length_le (Nat.le_of_eq h)]
  · exact absurd h (by simp [InetAddress.validAddr])

/-- Witness for C8: the loopback IPv4 address round-trips through
`ToBytes` and `FromBytes` on a fresh receiver. -/
theorem inet_tobytes_frombytes_roundtrip_witness :
    (InetAddress.mk BoostAddress.other).FromBytes
        ((InetAddress.mk (BoostAddress.v4 [127, 0, 0, 1])).ToBytes).2
      = (Status.OK, InetAddress.mk (BoostAddress.v4 [127, 0, 0, 1])) :=
  (inet_tobytes_frombytes_roundtrip (InetAddress.mk (BoostAddress.v4 [127, 0, 0, 1]))
    (InetAddress.mk BoostAddress.other) (by decide)).2.2.2

/-- C9: `FromSlice` returns `InvalidArgument` exactly when the expected
size (the `size_hint` when nonzero, otherwise the slice length) exceeds
the slice length or is neither 4 nor 16; its status is always `OK` or
`InvalidArgument`; on error the receiver is unchanged; and on success it
reads only the first expected-size bytes, storing an IPv4 address when the
expected size is 4 and an IPv6 address when it is 16. -/
theorem fromSlice_total_spec (a : InetAddress) (slice : List Nat) (size_hint : Nat) :
    ((a.FromSlice slice size_hint).1 = Status.InvalidArgument ↔
        (slice.length < expectedSize slice size_hint ∨
          (expectedSize slice size_hint ≠ 4 ∧ expectedSize slice size_hint ≠ 16))) ∧
    ((a.FromSlice slice size_hint).1 = Status.OK ∨
        (a.FromSlice slice size_hint).1 = Status.InvalidArgument) ∧
    ((a.FromSlice slice size_hint).1 = Status.InvalidArgument →
        (a.FromSlice slice size_hint).2 = a) ∧
    (expectedSize slice size_hint ≤ slice.length → expectedSize slice size_hint = 4 →
        a.FromSlice slice size_hint
          = (Status.OK, InetAddress.mk (BoostAddress.v4 (slice.take 4)))) ∧
    (expectedSize slice size_hint ≤ slice.length → expectedSize slice size_hint = 16 →
        a.FromSlice slice size_hint
          = (Status.OK, InetAddress.mk (BoostAddress.v6 (slice.take 16)))) := by
  unfold InetAddress.FromSlice kV4Size kV6Size
  split_ifs with h1 h2 h3 <;> simp_all

/-- Witness for C9: a 5-byte slice with `size_hint = 4` succeeds and stores
the first four bytes as an IPv4 address. -/
theorem fromSlice_total_spec_witness :
    (InetAddress.mk BoostAddress.other).FromSlice [10, 20, 30, 40, 50] 4
      = (Status.OK, InetAddress.mk (BoostAddress.v4 [10, 20, 30, 40])) :=
  (fromSlice_total_spec (InetAddress.mk BoostAddress.other) [10, 20, 30, 40, 50] 4).2.2.2.1
    (by decide) (by decide)

/-- C10: the demultiplexing id stored by a call is the `uint16_t`
`stream_id_`: initializing it from a wider call id truncates modulo 2^16,
`ExtractCallId` reports it as a 64-bit value below 2^16 (so the widening
is injective), and the stream-id type has exactly 65536 inhabitants. -/
theorem stream_id_is_uint16 (n : Nat) (c : CQLInboundCall) :
    (toUInt16Field n).val = n % 65536 ∧
    ExtractCallId (mkCallWithId n) = n % 65536 ∧
    ExtractCallId c < 65536 ∧
    ExtractCallId c < 2 ^ 64 ∧
    (∀ c' : CQLInboundCall, ExtractCallId c = ExtractCallId c' →
        c.stream_id = c'.stream_id) ∧
    Fintype.card StreamId = 65536 := by
  refine ⟨rfl, rfl, c.stream_id.isLt, ?_, ?_, ?_⟩
  · exact Nat.lt_trans c.stream_id.isLt (by norm_num)
  · intro c' hid
    exact Fin.val_injective hid
  · exact Fintype.card_fin 65536

/-- Witness for C10: call id 70000 is truncated to 70000 mod 65536 = 4464
in the stored stream id. -/
theorem stream_id_is_uint16_witness :
    ExtractCallId (mkCallWithId 70000) = 70000 % 65536 :=
  (stream_id_is_uint16 70000 (CQLInboundCall.mk (0 : StreamId) [])).2.1

end YB
